import Mathlib

/-!
Verification development for the pdf2db pipeline (extractor, transformer, loader).

The Python source is shallowly embedded: a pandas `DataFrame` becomes `DFrame`
(a list of column labels plus a list of rows of cells), the optional Camelot and
Tabula backends become oracle functions supplied as a `Backends` record, and
Python exceptions become `Except` results.  Python string/number primitives
(`str.strip`, `str.lower`, `str.replace`, `re.findall`, `pd.to_numeric`, …) are
modelled over `List Char`, with parsed numbers as exact decimals, for the
ASCII decimal forms the pipeline handles.
-/

/-! ## Python character and string primitives -/

/-- Whitespace characters stripped by Python `str.strip` and matched by
regex `\s` (space, tab, newline, carriage return, vertical tab, form feed). -/
def pyIsSpace (c : Char) : Bool :=
  c == ' ' || c == '\t' || c == '\n' || c == '\r' || c.toNat == 11 || c.toNat == 12

/-- ASCII digit test, the model of regex `\d` for this pipeline's data. -/
def pyIsDigit (c : Char) : Bool :=
  decide (48 ≤ c.toNat) && decide (c.toNat ≤ 57)

/-- Uppercase/lowercase ASCII letter pairs used by the model of `str.lower`. -/
def ulPairs : List (Char × Char) :=
  [('A','a'),('B','b'),('C','c'),('D','d'),('E','e'),('F','f'),('G','g'),
   ('H','h'),('I','i'),('J','j'),('K','k'),('L','l'),('M','m'),('N','n'),
   ('O','o'),('P','p'),('Q','q'),('R','r'),('S','s'),('T','t'),('U','u'),
   ('V','v'),('W','w'),('X','x'),('Y','y'),('Z','z')]

/-- Model of Python `str.lower` on one character (ASCII). -/
def pyCharLower (c : Char) : Char :=
  match ulPairs.find? (fun p => p.1 == c) with
  | some p => p.2
  | none => c

/-- Model of Python `str.strip` on a character list. -/
def pyStrip (l : List Char) : List Char :=
  ((l.dropWhile pyIsSpace).reverse.dropWhile pyIsSpace).reverse

/-- Decides whether the first list is an initial segment of the second. -/
def listIsPre : List Char → List Char → Bool
  | [], _ => true
  | _ :: _, [] => false
  | a :: as, b :: bs => a == b && listIsPre as bs

/-- Model of Python `s.startswith(pre)`. -/
def strStarts (s pre : String) : Bool :=
  listIsPre pre.data s.data

/-- Decides whether `sub` occurs contiguously inside the second list. -/
def listHasSub (sub : List Char) : List Char → Bool
  | [] => listIsPre sub []
  | c :: cs => listIsPre sub (c :: cs) || listHasSub sub cs

/-- Model of Python `sub in s` (substring occurrence). -/
def strHasSub (s sub : String) : Bool :=
  listHasSub sub.data s.data

/-- Numeric value of an ASCII digit character. -/
def digitVal (c : Char) : Nat := c.toNat - 48

/-- Value of a digit string read in base 10. -/
def natOfDigits (l : List Char) : Nat :=
  l.foldl (fun acc c => acc * 10 + digitVal c) 0

/-- Model of `transformer._standardize_column_name`: strip surrounding
whitespace, lowercase, and replace each space, hyphen and slash by `_`
(single-character `str.replace` calls act characterwise). -/
def standardize_column_name (s : String) : String :=
  ⟨((pyStrip s.data).map pyCharLower).map
    (fun c => if c == ' ' || c == '-' || c == '/' then '_' else c)⟩

/-! ## The table data model -/

/-- One cell of a table: missing (`NaN`/`None`/`NaT`), raw text, a nullable
integer (pandas `Int64`), or a calendar date (Python `datetime.date`). -/
inductive Cell where
  | null : Cell
  | str (s : String) : Cell
  | int (n : Int) : Cell
  | date (y m d : Nat) : Cell
deriving DecidableEq

/-- A pandas column label: numeric (`int`/`float` — in this pipeline always an
integer `RangeIndex` entry) or a string. -/
inductive ColLabel where
  | num (n : Int) : ColLabel
  | str (s : String) : ColLabel
deriving DecidableEq

/-- Shallow embedding of a pandas `DataFrame`: ordered column labels and rows
of cells.  Well-formed frames are rectangular (every row as long as `cols`). -/
structure DFrame where
  cols : List ColLabel
  rows : List (List Cell)
deriving DecidableEq

/-- Two-digit zero padding for the date rendering. -/
def pad2 (n : Nat) : String :=
  if n < 10 then "0" ++ toString n else "" ++ toString n

/-- Model of Python `str(value)` on a cell; a missing value renders as
`"nan"` (the `repr` of `float('nan')`, pandas' default missing marker). -/
def cellStr : Cell → String
  | Cell.null => "nan"
  | Cell.str s => s
  | Cell.int n => toString n
  | Cell.date y m d => toString y ++ "-" ++ pad2 m ++ "-" ++ pad2 d

/-- Model of Python `str(label)` on a column label. -/
def labelStr : ColLabel → String
  | ColLabel.num n => toString n
  | ColLabel.str s => s

/-- Model of `DataFrame.empty`: some axis has length zero. -/
def pdEmpty (df : DFrame) : Bool :=
  df.rows.isEmpty || df.cols.isEmpty

/-- Model of `name in df.columns` for a string `name`. -/
def hasCol (df : DFrame) (name : String) : Bool :=
  df.cols.contains (ColLabel.str name)

/-- Position of the first label equal to `ColLabel.str name` in a label list. -/
def colIdxAux (name : String) : List ColLabel → Option Nat
  | [] => none
  | l :: ls =>
    if l == ColLabel.str name then some 0
    else (colIdxAux name ls).map (· + 1)

/-- Position of the column labelled by the string `name`, if present. -/
def colIdx (df : DFrame) (name : String) : Option Nat :=
  colIdxAux name df.cols

/-- The values of column `i`, one per row (`Cell.null` out of range). -/
def getColumn (df : DFrame) (i : Nat) : List Cell :=
  df.rows.map (fun r => r.getD i Cell.null)

/-- Replace the values of column `i` by `vs` (one value per row). -/
def setColumn (df : DFrame) (i : Nat) (vs : List Cell) : DFrame :=
  { df with rows := List.zipWith (fun r v => r.set i v) df.rows vs }

/-- Decidable equality of `Except` values, so that concrete runs of the
embedded functions can be checked by `decide`. -/
instance {ε α : Type} [DecidableEq ε] [DecidableEq α] : DecidableEq (Except ε α)
  | Except.error a, Except.error b =>
    if h : a = b then Decidable.isTrue (congrArg Except.error h)
    else Decidable.isFalse (fun hh => h (Except.error.inj hh))
  | Except.error _, Except.ok _ => Decidable.isFalse (fun hh => Except.noConfusion hh)
  | Except.ok _, Except.error _ => Decidable.isFalse (fun hh => Except.noConfusion hh)
  | Except.ok a, Except.ok b =>
    if h : a = b then Decidable.isTrue (congrArg Except.ok h)
    else Decidable.isFalse (fun hh => h (Except.ok.inj hh))

/-! ## Extractor (`src/extractor.py`) -/

/-- Model of the per-frame filter `[f for f in frames if not f.empty]`
performed by both `_extract_with_camelot` and `_extract_with_tabula`. -/
def dropEmpty (fs : List DFrame) : List DFrame :=
  fs.filter (fun f => !pdEmpty f)

/-- Oracles standing for the external table-detection backends: the raw frame
lists produced by `camelot.read_pdf(..., flavor="lattice")`,
`camelot.read_pdf(..., flavor="stream")` and `tabula.read_pdf(...)` for a
given path.  An unavailable backend or a backend-internal parse failure is
absorbed as the empty list, exactly as the `try/except` wrappers do. -/
structure Backends where
  latticeRaw : String → List DFrame
  streamRaw : String → List DFrame
  tabulaRaw : String → List DFrame

/-- Model of `_extract_with_camelot(pdf_path, flavor="lattice")`. -/
def extractWithCamelotLattice (b : Backends) (path : String) : List DFrame :=
  dropEmpty (b.latticeRaw path)

/-- Model of `_extract_with_camelot(pdf_path, flavor="stream")`. -/
def extractWithCamelotStream (b : Backends) (path : String) : List DFrame :=
  dropEmpty (b.streamRaw path)

/-- Model of `_extract_with_tabula(pdf_path)`. -/
def extractWithTabula (b : Backends) (path : String) : List DFrame :=
  dropEmpty (b.tabulaRaw path)

/-- The three extraction strategies of the cascade, in priority order. -/
inductive Strategy where
  | camelotLattice : Strategy
  | camelotStream : Strategy
  | tabula : Strategy
deriving DecidableEq

/-- Error raised by `extract_tables` when every strategy yields nothing
(a Python `RuntimeError` carrying only its message string). -/
inductive ExtractErr where
  | runtimeError (msg : String) : ExtractErr
deriving DecidableEq

/-- The exact message of the `RuntimeError` raised at extractor.py:110. -/
def noTablesMsg : String :=
  "No tables could be extracted from the PDF. Ensure the PDF has structured tables and that Camelot/Tabula system dependencies are installed."

/-- Integer labels `start, start+1, …` for `k` newly appended columns. -/
def rangeLabels : Nat → Nat → List ColLabel
  | _, 0 => []
  | s, k + 1 => ColLabel.num s :: rangeLabels (s + 1) k

/-- Model of the padding loop at extractor.py:118-122: while the frame is
narrower than `maxCols`, `frame[frame.shape[1]] = None` appends a column of
`None` labelled with the next integer, and `reindex(sorted(frame.columns))`
keeps the positional order for the integer `RangeIndex` labels the backends
produce. -/
def padToWidth (maxCols : Nat) (f : DFrame) : DFrame :=
  if f.cols.length < maxCols then
    { cols := f.cols ++ rangeLabels f.cols.length (maxCols - f.cols.length),
      rows := f.rows.map
        (fun r => r ++ List.replicate (maxCols - f.cols.length) Cell.null) }
  else f

/-- Model of the merge step at extractor.py:114-126: compute
`max_cols = max(frame.shape[1] ...)`, pad every narrower frame, and
`pd.concat(..., ignore_index=True)` the results (all padded frames share the
positional labels `0..max_cols-1`, so concatenation aligns by position). -/
def mergeFrames (frames : List DFrame) : DFrame :=
  let maxCols := (frames.map (fun f => f.cols.length)).foldr (fun a b => max a b) 0
  let normalized := frames.map (padToWidth maxCols)
  { cols := (normalized.headD ⟨[], []⟩).cols,
    rows := (normalized.map DFrame.rows).flatten }

/-- Model of `extract_tables` (extractor.py:80-127).  Besides the result it
returns the list of strategies actually invoked, in invocation order. -/
def extract_tables (b : Backends) (path : String) :
    Except ExtractErr DFrame × List Strategy :=
  let f1 := extractWithCamelotLattice b path
  let s1 := [Strategy.camelotLattice]
  let f2 := if f1.isEmpty then f1 ++ extractWithCamelotStream b path else f1
  let s2 := if f1.isEmpty then s1 ++ [Strategy.camelotStream] else s1
  let f3 := if f2.isEmpty then f2 ++ extractWithTabula b path else f2
  let s3 := if f2.isEmpty then s2 ++ [Strategy.tabula] else s2
  if f3.isEmpty then (Except.error (ExtractErr.runtimeError noTablesMsg), s3)
  else (Except.ok (mergeFrames f3), s3)

/-! ## Loader (`src/loader.py`) -/

/-- Failure modes of `load_dataframe_to_db`: `create_engine` raised on the
connection string, or the batched `to_sql` write failed. -/
inductive LoadErr where
  | createFailed : LoadErr
  | writeFailed : LoadErr
deriving DecidableEq

/-- The observable state of the target store: the log of appended batches
(table name together with the appended rows). -/
structure DBState where
  stored : List (String × List (List Cell))
deriving DecidableEq

/-- Oracles for the external database: whether `create_engine(url)` succeeds
and whether the append `to_sql` write to a table succeeds. -/
structure DBEnv where
  createOk : String → Bool
  writeOk : String → String → Bool

/-- Record one append-only batched write, as `df.to_sql(..., if_exists="append")`. -/
def appendRows (st : DBState) (tbl : String) (rows : List (List Cell)) : DBState :=
  { stored := st.stored ++ [(tbl, rows)] }

/-- Model of `load_dataframe_to_db` (loader.py:42-79).  The returned triple is
the call's outcome, whether an engine (connection resource) was created, and
the resulting store state.  An empty frame returns before any engine is
created; otherwise the engine is created, the write is attempted, and errors
propagate to the caller (the `finally` dispose does not change the store). -/
def load_dataframe_to_db (env : DBEnv) (st : DBState) (df : DFrame)
    (url tbl : String) (chunksize : Nat) :
    Except LoadErr Unit × Bool × DBState :=
  let _ := chunksize
  if pdEmpty df then (Except.ok (), false, st)
  else if env.createOk url then
    if env.writeOk url tbl then (Except.ok (), true, appendRows st tbl df.rows)
    else (Except.error LoadErr.writeFailed, true, st)
  else (Except.error LoadErr.createFailed, false, st)

/-! ## Transformer (`src/transformer.py`) -/

/-- Model of the per-label test at transformer.py:36:
`isinstance(col, (int, float)) or str(col).startswith("Unnamed")`. -/
def isPlaceholderLabel : ColLabel → Bool
  | ColLabel.num _ => true
  | ColLabel.str s => strStarts s "Unnamed"

/-- Model of the header-promotion precondition at transformer.py:36: every
column label is numeric-typed or starts with `"Unnamed"`. -/
def promoteCond (cols : List ColLabel) : Bool :=
  cols.all isPlaceholderLabel

/-- Model of the per-token test `h and h != "nan"` at transformer.py:39. -/
def goodHeaderTok (h : String) : Bool :=
  !(h == "") && !(h == "nan")

/-- Model of lines 36-41 of `clean_column_headers` in isolation: the
header-promotion step.  When the precondition holds and the frame has no rows,
`df.iloc[0]` raises `IndexError`. -/
def promoteHeaders (df : DFrame) : Except Unit DFrame :=
  if promoteCond df.cols then
    match df.rows with
    | [] => Except.error ()
    | r0 :: rest =>
      if (r0.map cellStr).any goodHeaderTok then
        Except.ok ⟨(r0.map cellStr).map ColLabel.str, rest⟩
      else Except.ok df
  else Except.ok df

/-- Standardize every label: the list-level form of transformer.py:43. -/
def standardizeCols (l : List ColLabel) : List ColLabel :=
  l.map (fun c => ColLabel.str (standardize_column_name (labelStr c)))

/-- Model of `clean_column_headers` (transformer.py:26-44): possibly promote
row 0 to the header, then unconditionally standardize every column label. -/
def clean_column_headers (df : DFrame) : Except Unit DFrame :=
  if promoteCond df.cols then
    match df.rows with
    | [] => Except.error ()
    | r0 :: rest =>
      if (r0.map cellStr).any goodHeaderTok then
        Except.ok ⟨standardizeCols ((r0.map cellStr).map ColLabel.str), rest⟩
      else Except.ok ⟨standardizeCols df.cols, df.rows⟩
  else Except.ok ⟨standardizeCols df.cols, df.rows⟩

/-- Exact decimal number `mant / 10 ^ scale`, the value space of
`pd.to_numeric` on the decimal text this pipeline sees. -/
structure DecNum where
  mant : Int
  scale : Nat
deriving DecidableEq

/-- Powers of ten as integers. -/
def pow10 : Nat → Int
  | 0 => 1
  | n + 1 => 10 * pow10 n

/-- Whether the decimal denotes an integer (safe `astype("Int64")` succeeds). -/
def decNumIsInt (q : DecNum) : Bool :=
  q.mant % pow10 q.scale == 0

/-- The integer denoted by an integral decimal. -/
def decNumToInt (q : DecNum) : Int :=
  q.mant / pow10 q.scale

/-- Model of the numeric parse performed by `pd.to_numeric(..., errors="coerce")`
on one value: an optional sign followed by decimal digits with an optional
fractional part, surrounded by optional whitespace; any other text coerces to
missing.  (Exponent and non-finite forms do not occur in this pipeline's data
and are likewise sent to `none`.) -/
def pyParseNumber (s : String) : Option DecNum :=
  let l := pyStrip s.data
  let sgn : Int := if l.headD ' ' == '-' then -1 else 1
  let l1 := if l.headD ' ' == '-' || l.headD ' ' == '+' then l.tail else l
  let ip := l1.takeWhile pyIsDigit
  let r1 := l1.dropWhile pyIsDigit
  match r1 with
  | [] => if ip.isEmpty then none else some ⟨sgn * natOfDigits ip, 0⟩
  | '.' :: fp =>
    if fp.all pyIsDigit && !(ip.isEmpty && fp.isEmpty) then
      some ⟨sgn * (natOfDigits ip * pow10 fp.length + natOfDigits fp), fp.length⟩
    else none
  | _ => none

/-- Result of `pd.to_numeric(series, errors="coerce")` on one cell. -/
def toNumericCell : Cell → Option DecNum
  | Cell.null => none
  | Cell.str s => pyParseNumber s
  | Cell.int n => some ⟨n, 0⟩
  | Cell.date _ _ _ => none

/-- Model of `_coerce_int` (transformer.py:47-49):
`pd.to_numeric(series, errors="coerce").astype("Int64")`.  The `astype` uses
pandas' safe casting: if any coerced value is a non-integral number the whole
conversion raises `TypeError`; otherwise unparseable cells become missing and
the rest become nullable integers. -/
def coerce_int (cells : List Cell) : Except Unit (List Cell) :=
  let nums := cells.map toNumericCell
  if nums.all (fun o => match o with | none => true | some q => decNumIsInt q) then
    Except.ok (nums.map (fun o => match o with
      | none => Cell.null
      | some q => Cell.int (decNumToInt q)))
  else Except.error ()

/-- Fuelled scan implementing `re.findall(r"(\d{8})", s)`: at each position,
if the next 8 characters are all digits they form a match and the scan resumes
after them, else the scan advances one character. -/
def findallAux : Nat → List Char → List (List Char)
  | 0, _ => []
  | _ + 1, [] => []
  | n + 1, c :: cs =>
    if ((c :: cs).take 8).length == 8 && ((c :: cs).take 8).all pyIsDigit then
      (c :: cs).take 8 :: findallAux n ((c :: cs).drop 8)
    else findallAux n cs

/-- Model of `re.findall(r"(\d{8})", s)`, all matches left to right. -/
def findall8 (l : List Char) : List (List Char) :=
  findallAux l.length l

/-- The text `_extract_ymd_digits` scans: `"" if pd.isna(value) else str(value)`
(transformer.py:57). -/
def ymdText : Cell → String
  | Cell.null => ""
  | c => cellStr c

/-- Model of `_extract_ymd_digits` (transformer.py:52-62): render the value
(`""` when missing), scan for 8-digit runs, and keep the last match. -/
def extract_ymd_digits (c : Cell) : Option String :=
  match (findall8 (ymdText c).data).getLast? with
  | none => none
  | some run => some ⟨run⟩

/-- Gregorian leap-year test. -/
def isLeapYear (y : Nat) : Bool :=
  (y % 4 == 0 && !(y % 100 == 0)) || y % 400 == 0

/-- Number of days in the given month. -/
def daysInMonth (y m : Nat) : Nat :=
  if m == 2 then (if isLeapYear y then 29 else 28)
  else if m == 4 || m == 6 || m == 9 || m == 11 then 30
  else 31

/-- Validity of `y-m-d` for `pd.to_datetime(..., format="%Y%m%d",
errors="coerce")`: a real calendar date within the representable
`pd.Timestamp` range (midnight of 1677-09-21 is below `Timestamp.min`,
so the first representable day is 1677-09-22; the last is 2262-04-11). -/
def validYMD (y m d : Nat) : Bool :=
  1 ≤ m && m ≤ 12 && 1 ≤ d && d ≤ daysInMonth y m &&
    16770922 ≤ y * 10000 + m * 100 + d && y * 10000 + m * 100 + d ≤ 22620411

/-- Parse an 8-digit string under the fixed `%Y%m%d` format; `none` models
coercion to `NaT`. -/
def parseYMD8 (s : String) : Option Cell :=
  let l := s.data
  if l.length == 8 && l.all pyIsDigit then
    let n := natOfDigits l
    let y := n / 10000
    let m := n / 100 % 100
    let d := n % 100
    if validYMD y m d then some (Cell.date y m d) else none
  else none

/-- Cell-level model of `_coerce_date` (transformer.py:65-72): extract the
last 8-digit run and parse it strictly; any failure yields missing (`NaT`). -/
def coerceDateCell (c : Cell) : Cell :=
  match extract_ymd_digits c with
  | none => Cell.null
  | some run =>
    match parseYMD8 run with
    | none => Cell.null
    | some dc => dc

/-- Model of `if name in df.columns: df[name] = _coerce_int(df[name])`
(transformer.py:109-113); the series-level `astype` error propagates. -/
def coerceIntColumn (df : DFrame) (name : String) : Except Unit DFrame :=
  match colIdx df name with
  | none => Except.ok df
  | some i =>
    match coerce_int (getColumn df i) with
    | Except.error e => Except.error e
    | Except.ok vs => Except.ok (setColumn df i vs)

/-- Model of `if name in df.columns: df[name] = _coerce_date(df[name])`
(transformer.py:115-119); date coercion never raises. -/
def coerceDateColumn (df : DFrame) (name : String) : DFrame :=
  match colIdx df name with
  | none => df
  | some i => setColumn df i ((getColumn df i).map coerceDateCell)

/-- Deterministic matcher for the compiled regex
`^\s*(\d+)\D+(\d{8})\s*$` of transformer.py:88 applied by `re.match`:
optional leading whitespace, a maximal digit run (group 1), a maximal
non-digit run, then exactly 8 digits (group 2) followed only by whitespace.
Greedy backtracking admits no other decomposition, since `\d+`/`\D+` must end
exactly where the character class changes. -/
def matchCompound (s : String) : Option (List Char × List Char) :=
  let l := s.data.dropWhile pyIsSpace
  let d1 := l.takeWhile pyIsDigit
  let r1 := l.dropWhile pyIsDigit
  let sep := r1.takeWhile (fun c => !pyIsDigit c)
  let r2 := r1.dropWhile (fun c => !pyIsDigit c)
  let d8 := r2.takeWhile pyIsDigit
  let r3 := r2.dropWhile pyIsDigit
  if !d1.isEmpty && !sep.isEmpty && d8.length == 8 && r3.all pyIsSpace then
    some (d1, d8)
  else none

/-- Model of the compound-field split at transformer.py:86-95, row-wise: when
any `as_of_date` cell (rendered with `astype(str)`) matches the pattern, the
two `.loc[mask, …]` assignments update the matching rows' `as_of_date` to the
8-digit run and create a trailing `row_number` column holding the leading
integer for matching rows and missing for the rest. -/
def splitCompound (df : DFrame) (i : Nat) : DFrame :=
  let series := getColumn df i
  if series.any (fun c => (matchCompound (cellStr c)).isSome) then
    { cols := df.cols ++ [ColLabel.str "row_number"],
      rows := df.rows.map (fun r =>
        match matchCompound (cellStr (r.getD i Cell.null)) with
        | some (d1, d8) => r.set i (Cell.str ⟨d8⟩) ++ [Cell.int (natOfDigits d1)]
        | none => r ++ [Cell.null]) }
  else df

/-- Model of the guard at transformer.py:87: the split runs exactly when no
`row_number` column exists but an `as_of_date` column does. -/
def compoundRepair (df : DFrame) : DFrame :=
  if !hasCol df "row_number" && hasCol df "as_of_date" then
    match colIdx df "as_of_date" with
    | some i => splitCompound df i
    | none => df
  else df

/-- Model of `transform_dataframe` (transformer.py:75-122): clean headers,
repair the compound field, then coerce the four expected business columns in
source order (a missing expected column is only logged). -/
def transform_dataframe (df0 : DFrame) : Except Unit DFrame :=
  match clean_column_headers df0 with
  | Except.error e => Except.error e
  | Except.ok df1 =>
    let df2 := compoundRepair df1
    match coerceIntColumn df2 "row_number" with
    | Except.error e => Except.error e
    | Except.ok df3 =>
      match coerceIntColumn df3 "customer_code" with
      | Except.error e => Except.error e
      | Except.ok df4 =>
        let df5 := coerceDateColumn df4 "as_of_date"
        let df6 := coerceDateColumn df5 "date_of_restructure"
        Except.ok df6

/-! ## Supporting lemmas -/

theorem getD_append_left_of_lt {α : Type} (l₁ l₂ : List α) (i : Nat) (d : α)
    (h : i < l₁.length) : (l₁ ++ l₂).getD i d = l₁.getD i d := by
  simp [List.getD_eq_getElem?_getD, List.getElem?_append_left h]

theorem getD_append_at_length {α : Type} (l : List α) (v d : α) :
    (l ++ [v]).getD l.length d = v := by
  simp [List.getD_eq_getElem?_getD, List.getElem?_append_right (Nat.le_refl _)]

theorem getD_set_self_of_lt {α : Type} (l : List α) (i : Nat) (v d : α)
    (h : i < l.length) : (l.set i v).getD i d = v := by
  simp [List.getD_eq_getElem?_getD, List.getElem?_set_self h]

theorem foldrMax_le (l : List Nat) : ∀ a ∈ l, a ≤ l.foldr (fun a b => max a b) 0 := by
  induction l with
  | nil => intro a ha; cases ha
  | cons x xs ih =>
    intro a ha
    cases ha with
    | head => exact Nat.le_max_left _ _
    | tail _ hmem => exact le_trans (ih a hmem) (Nat.le_max_right _ _)

theorem foldrMax_mem (l : List Nat) (h : l ≠ []) :
    ∃ a ∈ l, l.foldr (fun a b => max a b) 0 = a := by
  induction l with
  | nil => exact absurd rfl h
  | cons x xs ih =>
    cases xs with
    | nil => exact ⟨x, List.mem_singleton.2 rfl, Nat.max_zero x⟩
    | cons y ys =>
      obtain ⟨a, hmem, heq⟩ := ih (by simp)
      by_cases hle : (y :: ys).foldr (fun a b => max a b) 0 ≤ x
      · refine ⟨x, List.mem_cons_self _ _, ?_⟩
        show max x ((y :: ys).foldr (fun a b => max a b) 0) = x
        exact Nat.max_eq_left hle
      · refine ⟨a, List.mem_cons_of_mem _ hmem, ?_⟩
        show max x ((y :: ys).foldr (fun a b => max a b) 0) = a
        rw [Nat.max_eq_right (Nat.le_of_not_le hle), heq]

/-! ## C10: empty frame short-circuits the loader -/

/-- C10: for every empty input table (zero rows), `load_dataframe_to_db`
returns normally without creating a connection and without any write,
whatever the URL (even an invalid one) and table name; the store state is
unchanged. -/
theorem C10_load_empty_noop (env : DBEnv) (st : DBState) (df : DFrame)
    (url tbl : String) (cs : Nat) (h : df.rows = []) :
    load_dataframe_to_db env st df url tbl cs = (Except.ok (), false, st) := by
  simp [load_dataframe_to_db, pdEmpty, h]

theorem C10_load_empty_noop_witness :
    (⟨[ColLabel.num 0], []⟩ : DFrame).rows = [] ∧
    load_dataframe_to_db ⟨fun _ => false, fun _ _ => false⟩ ⟨[]⟩
      ⟨[ColLabel.num 0], []⟩ "not a valid url" "pdf_data" 1000 =
      (Except.ok (), false, ⟨[]⟩) :=
  ⟨rfl, C10_load_empty_noop _ _ _ _ _ _ rfl⟩

/-! ## C2: integer coercion can raise on decimal text -/

/-- C2 is violated by the code: the cell `"1.5"` in the `row_number` column
cannot be parsed to an integer, yet `transform_dataframe` raises (the
`astype("Int64")` safe cast fails on the non-integral float) instead of
producing a null cell, while plain non-numeric text such as `"abc"` does
become null as claimed. -/
theorem C2_coerce_raises_on_decimal_text :
    transform_dataframe ⟨[ColLabel.str "row_number"], [[Cell.str "1.5"]]⟩ =
      Except.error () ∧
    transform_dataframe ⟨[ColLabel.str "row_number"], [[Cell.str "abc"]]⟩ =
      Except.ok ⟨[ColLabel.str "row_number"], [[Cell.null]]⟩ := by
  exact ⟨by decide, by decide⟩

/-! ## C4: the no-tables failure -/

/-- C4 (amended): `extract_tables` fails — with a `RuntimeError` whose fixed
message does not carry the input path — if and only if every strategy of the
cascade produced zero (non-empty) tables; the error is returned to the caller
with no retry, and when some strategy yields a table no error is raised. -/
theorem C4_noTables_iff_all_strategies_empty (b : Backends) (path : String) :
    (extract_tables b path).1 = Except.error (ExtractErr.runtimeError noTablesMsg) ↔
      extractWithCamelotLattice b path = [] ∧
      extractWithCamelotStream b path = [] ∧
      extractWithTabula b path = [] := by
  by_cases h1 : extractWithCamelotLattice b path = []
  · by_cases h2 : extractWithCamelotStream b path = []
    · by_cases h3 : extractWithTabula b path = []
      · simp [extract_tables, h1, h2, h3]
      · simp [extract_tables, h1, h2, h3]
    · simp [extract_tables, h1, h2]
  · simp [extract_tables, h1]

/-- C4 counterexample to the claim as stated: when every strategy is empty the
raised error is one and the same fixed-message `RuntimeError` for two distinct
input paths, and neither path occurs in the message — the error does not carry
the input path. -/
theorem C4_error_does_not_carry_path :
    (extract_tables ⟨fun _ => [], fun _ => [], fun _ => []⟩ "a.pdf").1 =
      Except.error (ExtractErr.runtimeError noTablesMsg) ∧
    (extract_tables ⟨fun _ => [], fun _ => [], fun _ => []⟩ "b.pdf").1 =
      Except.error (ExtractErr.runtimeError noTablesMsg) ∧
    strHasSub noTablesMsg "a.pdf" = false ∧
    strHasSub noTablesMsg "b.pdf" = false := by
  exact ⟨by decide, by decide, by decide, by decide⟩

/-! ## C3: the cascade short-circuits -/

/-- C3: when an earlier strategy yields at least one non-empty table, no later
strategy is invoked: a non-empty border-based (Camelot lattice) result makes
the invocation trace exactly `[camelotLattice]`, and a non-empty
whitespace-based (Camelot stream) result keeps Tabula out of the trace. -/
theorem C3_cascade_short_circuits (b : Backends) (path : String) :
    (extractWithCamelotLattice b path ≠ [] →
      (extract_tables b path).2 = [Strategy.camelotLattice] ∧
      Strategy.camelotStream ∉ (extract_tables b path).2 ∧
      Strategy.tabula ∉ (extract_tables b path).2) ∧
    (extractWithCamelotLattice b path = [] → extractWithCamelotStream b path ≠ [] →
      (extract_tables b path).2 = [Strategy.camelotLattice, Strategy.camelotStream] ∧
      Strategy.tabula ∉ (extract_tables b path).2) := by
  constructor
  · intro h1
    have ht : (extract_tables b path).2 = [Strategy.camelotLattice] := by
      simp [extract_tables, h1, apply_ite Prod.snd]
    exact ⟨ht, by simp [ht], by simp [ht]⟩
  · intro h1 h2
    have ht : (extract_tables b path).2 = [Strategy.camelotLattice, Strategy.camelotStream] := by
      simp [extract_tables, h1, h2, apply_ite Prod.snd]
    exact ⟨ht, by simp [ht]⟩

theorem C3_cascade_short_circuits_witness :
    extractWithCamelotLattice
        ⟨fun _ => [⟨[ColLabel.num 0], [[Cell.str "x"]]⟩], fun _ => [], fun _ => []⟩
        "doc.pdf" ≠ [] ∧
    (extract_tables
        ⟨fun _ => [⟨[ColLabel.num 0], [[Cell.str "x"]]⟩], fun _ => [], fun _ => []⟩
        "doc.pdf").2 = [Strategy.camelotLattice] :=
  ⟨by decide,
   ((C3_cascade_short_circuits
      ⟨fun _ => [⟨[ColLabel.num 0], [[Cell.str "x"]]⟩], fun _ => [], fun _ => []⟩
      "doc.pdf").1 (by decide)).1⟩

/-! ## C1: the merge step -/

theorem rangeLabels_length : ∀ s k, (rangeLabels s k).length = k := by
  intro s k
  induction k generalizing s with
  | zero => rfl
  | succ n ih => simp [rangeLabels, ih]

theorem padToWidth_cols_length (M : Nat) (f : DFrame) (h : f.cols.length ≤ M) :
    (padToWidth M f).cols.length = M := by
  unfold padToWidth
  by_cases hlt : f.cols.length < M
  · rw [if_pos hlt]
    show (f.cols ++ rangeLabels f.cols.length (M - f.cols.length)).length = M
    rw [List.length_append, rangeLabels_length]
    omega
  · rw [if_neg hlt]
    omega

theorem padToWidth_rows (M : Nat) (f : DFrame) (h : f.cols.length ≤ M) :
    (padToWidth M f).rows =
      f.rows.map (fun r => r ++ List.replicate (M - f.cols.length) Cell.null) := by
  unfold padToWidth
  by_cases hlt : f.cols.length < M
  · rw [if_pos hlt]
  · rw [if_neg hlt]
    have heq : M - f.cols.length = 0 := by omega
    simp [heq]

/-- C1: merging a non-empty list of rectangular raw tables pads every table
with trailing null cells up to the maximum input width `maxCols`, the merged
table has exactly `maxCols` columns (an attained maximum), every merged row
has that width, the rows are the padded input rows concatenated in table
order, and the merged row count is the exact sum of the input row counts. -/
theorem C1_merge_pads_and_concatenates (frames : List DFrame) (hne : frames ≠ [])
    (hrect : ∀ f ∈ frames, ∀ r ∈ f.rows, r.length = f.cols.length) :
    (mergeFrames frames).cols.length =
      (frames.map (fun f => f.cols.length)).foldr (fun a b => max a b) 0 ∧
    (∀ f ∈ frames, f.cols.length ≤ (mergeFrames frames).cols.length) ∧
    (∃ f ∈ frames, f.cols.length = (mergeFrames frames).cols.length) ∧
    (mergeFrames frames).rows =
      (frames.map (fun f => f.rows.map (fun r =>
        r ++ List.replicate
          ((frames.map (fun g => g.cols.length)).foldr (fun a b => max a b) 0
            - f.cols.length) Cell.null))).flatten ∧
    (∀ r ∈ (mergeFrames frames).rows, r.length = (mergeFrames frames).cols.length) ∧
    (mergeFrames frames).rows.length = (frames.map (fun f => f.rows.length)).sum := by
  set M := (frames.map (fun f => f.cols.length)).foldr (fun a b => max a b) 0 with hM
  have hbound : ∀ f ∈ frames, f.cols.length ≤ M := by
    intro f hf
    exact foldrMax_le _ _ (List.mem_map_of_mem (fun f => f.cols.length) hf)
  have hcols : (mergeFrames frames).cols.length = M := by
    obtain ⟨f0, rest, rfl⟩ := List.exists_cons_of_ne_nil hne
    show ((List.map (padToWidth M) (f0 :: rest)).headD ⟨[], []⟩).cols.length = M
    simp only [List.map_cons, List.headD_cons]
    exact padToWidth_cols_length M f0 (hbound f0 (List.mem_cons_self _ _))
  have hrows : (mergeFrames frames).rows =
      (frames.map (fun f => f.rows.map (fun r =>
        r ++ List.replicate (M - f.cols.length) Cell.null))).flatten := by
    show ((frames.map (padToWidth M)).map DFrame.rows).flatten = _
    rw [List.map_map]
    congr 1
    exact List.map_congr_left (fun f hf => padToWidth_rows M f (hbound f hf))
  have hattain : ∃ f ∈ frames, f.cols.length = M := by
    obtain ⟨a, hamem, haeq⟩ := foldrMax_mem (frames.map (fun f => f.cols.length))
      (by simpa using hne)
    obtain ⟨f, hf, hfe⟩ := List.mem_map.1 hamem
    exact ⟨f, hf, by rw [hfe, ← haeq]⟩
  have hwidths : ∀ r ∈ (mergeFrames frames).rows, r.length = M := by
    intro r hr
    rw [hrows] at hr
    obtain ⟨l, hl, hrl⟩ := List.mem_flatten.1 hr
    obtain ⟨f, hf, rfl⟩ := List.mem_map.1 hl
    obtain ⟨r', hr', rfl⟩ := List.mem_map.1 hrl
    rw [List.length_append, List.length_replicate, hrect f hf r' hr']
    have := hbound f hf
    omega
  have hcount : (mergeFrames frames).rows.length =
      (frames.map (fun f => f.rows.length)).sum := by
    rw [hrows, List.length_flatten, List.map_map]
    congr 1
    exact List.map_congr_left (fun f _ => by simp)
  exact ⟨hcols, fun f hf => hcols ▸ hbound f hf,
    hattain.imp (fun f h => ⟨h.1, hcols ▸ h.2⟩), hrows, fun r hr => by
      rw [hcols]; exact hwidths r hr, hcount⟩

theorem C1_merge_pads_and_concatenates_witness :
    ([⟨[ColLabel.num 0], [[Cell.str "a"]]⟩,
      ⟨[ColLabel.num 0, ColLabel.num 1], [[Cell.str "b", Cell.str "c"]]⟩]
        : List DFrame) ≠ [] ∧
    (mergeFrames [⟨[ColLabel.num 0], [[Cell.str "a"]]⟩,
      ⟨[ColLabel.num 0, ColLabel.num 1], [[Cell.str "b", Cell.str "c"]]⟩]).rows.length = 2 :=
  ⟨by decide,
   (C1_merge_pads_and_concatenates
      [⟨[ColLabel.num 0], [[Cell.str "a"]]⟩,
       ⟨[ColLabel.num 0, ColLabel.num 1], [[Cell.str "b", Cell.str "c"]]⟩]
      (by decide) (by decide)).2.2.2.2.2.trans (by decide)⟩

/-! ## C6: date coercion takes the last 8-digit run -/

theorem findallAux_sound : ∀ (n : Nat) (l : List Char), l.length ≤ n →
    ∀ r ∈ findallAux n l, r.length = 8 ∧ r.all pyIsDigit = true ∧ r <:+: l := by
  intro n
  induction n with
  | zero => intro l _ r hr; simp [findallAux] at hr
  | succ n ih =>
    intro l hlen r hr
    cases l with
    | nil => simp [findallAux] at hr
    | cons c cs =>
      rw [findallAux] at hr
      by_cases hb : (((c :: cs).take 8).length == 8 && ((c :: cs).take 8).all pyIsDigit) = true
      · rw [if_pos hb] at hr
        rw [Bool.and_eq_true] at hb
        obtain ⟨h1, h2⟩ := hb
        cases hr with
        | head =>
          exact ⟨beq_iff_eq.1 h1, h2, (List.take_prefix 8 (c :: cs)).isInfix⟩
        | tail _ hmem =>
          have hlen' : ((c :: cs).drop 8).length ≤ n := by
            rw [List.length_drop]
            simp only [List.length_cons] at hlen ⊢
            omega
          obtain ⟨ha, hb', hc⟩ := ih _ hlen' r hmem
          exact ⟨ha, hb', hc.trans (List.drop_suffix 8 (c :: cs)).isInfix⟩
      · rw [if_neg hb] at hr
        have hlen' : cs.length ≤ n := by
          simp only [List.length_cons] at hlen
          omega
        obtain ⟨ha, hb', hc⟩ := ih cs hlen' r hr
        exact ⟨ha, hb', hc.trans (List.suffix_cons c cs).isInfix⟩

theorem findallAux_complete : ∀ (n : Nat) (l : List Char), l.length ≤ n →
    ∀ i : Nat, ((l.drop i).take 8).length = 8 →
    ((l.drop i).take 8).all pyIsDigit = true → findallAux n l ≠ [] := by
  intro n
  induction n with
  | zero =>
    intro l hlen i h8 _
    have : l = [] := List.length_eq_zero.1 (Nat.le_zero.1 hlen)
    subst this
    simp at h8
  | succ n ih =>
    intro l hlen i h8 hdig
    cases l with
    | nil => simp at h8
    | cons c cs =>
      rw [findallAux]
      by_cases hb : (((c :: cs).take 8).length == 8 && ((c :: cs).take 8).all pyIsDigit) = true
      · rw [if_pos hb]
        simp
      · rw [if_neg hb]
        cases i with
        | zero =>
          rw [List.drop_zero] at h8 hdig
          apply absurd _ hb
          rw [Bool.and_eq_true]
          exact ⟨beq_iff_eq.2 h8, hdig⟩
        | succ j =>
          have hlen' : cs.length ≤ n := by
            simp only [List.length_cons] at hlen
            omega
          have hd : (c :: cs).drop (j + 1) = cs.drop j := rfl
          rw [hd] at h8 hdig
          exact ih cs hlen' j h8 hdig

/-- C6: the cell-level date coercion renders a missing cell as the empty
string (hence null), every match of the 8-digit scan is a contiguous run of
exactly 8 digits occurring in the cell's text, the scan finds a match whenever
any position starts 8 consecutive digits, no match yields null, and otherwise
the LAST match is parsed under `%Y%m%d` with null on parse failure. -/
theorem C6_date_coercion_last_run (c : Cell) :
    (c = Cell.null → coerceDateCell c = Cell.null) ∧
    (∀ r ∈ findall8 (ymdText c).data,
      r.length = 8 ∧ r.all pyIsDigit = true ∧ r <:+: (ymdText c).data) ∧
    (∀ i : Nat, (((ymdText c).data.drop i).take 8).length = 8 →
      (((ymdText c).data.drop i).take 8).all pyIsDigit = true →
      findall8 (ymdText c).data ≠ []) ∧
    (findall8 (ymdText c).data = [] → coerceDateCell c = Cell.null) ∧
    (∀ run, (findall8 (ymdText c).data).getLast? = some run →
      coerceDateCell c = (parseYMD8 ⟨run⟩).getD Cell.null) := by
  refine ⟨?_, ?_, ?_, ?_, ?_⟩
  · intro h
    subst h
    rfl
  · intro r hr
    exact findallAux_sound _ _ (Nat.le_refl _) r hr
  · intro i h8 hdig
    exact findallAux_complete _ _ (Nat.le_refl _) i h8 hdig
  · intro hnil
    unfold coerceDateCell extract_ymd_digits
    rw [hnil]
    rfl
  · intro run hlast
    unfold coerceDateCell extract_ymd_digits
    rw [hlast]
    cases hp : parseYMD8 ⟨run⟩ <;> simp [hp]

theorem C6_date_coercion_last_run_witness :
    (findall8 (ymdText (Cell.str "1 20250630")).data).getLast? = some "20250630".data ∧
    coerceDateCell (Cell.str "1 20250630") = Cell.date 2025 6 30 :=
  ⟨by decide,
   ((C6_date_coercion_last_run (Cell.str "1 20250630")).2.2.2.2 "20250630".data
      (by decide)).trans (by decide)⟩

/-! ## C5: header promotion -/

/-- C5 (amended): header promotion treats row 0 as a candidate header exactly
when every column label is numeric-typed or is a string starting with
`"Unnamed"` (capital U); string placeholders such as `"1"` or lowercase
`"unnamed: 1"` do not qualify.  Under that precondition, promotion fires
exactly when some row-0 token is non-empty and not `"nan"`, removing row 0
and installing the tokens as labels; otherwise (and whenever the precondition
fails) labels and rows are unchanged. -/
theorem C5_header_promotion (df : DFrame) :
    (promoteCond df.cols = false → promoteHeaders df = Except.ok df) ∧
    (promoteCond df.cols = true → ∀ r0 rest, df.rows = r0 :: rest →
      ((r0.map cellStr).any goodHeaderTok = true →
        promoteHeaders df = Except.ok ⟨(r0.map cellStr).map ColLabel.str, rest⟩) ∧
      ((r0.map cellStr).any goodHeaderTok = false →
        promoteHeaders df = Except.ok df)) := by
  constructor
  · intro hc
    unfold promoteHeaders
    rw [if_neg (by simp [hc])]
  · intro hc r0 rest hrows
    constructor
    · intro ha
      unfold promoteHeaders
      rw [if_pos hc, hrows]
      show (if (r0.map cellStr).any goodHeaderTok then _ else _) = _
      rw [if_pos ha]
    · intro ha
      unfold promoteHeaders
      rw [if_pos hc, hrows]
      show (if (r0.map cellStr).any goodHeaderTok then _ else _) = _
      rw [if_neg (by simp [ha])]

/-- C5 counterexample to the claim as stated: the string placeholder labels
`"1"`, `"unnamed: 1"`, `"unnamed: 2"` with a row 0 full of good tokens do NOT
fire promotion — the code tests `isinstance(col, (int, float))` and
`str(col).startswith("Unnamed")`, both false for these strings — so row 0 is
kept and the labels stay. -/
theorem C5_string_placeholders_not_promoted :
    promoteHeaders ⟨[ColLabel.str "1", ColLabel.str "unnamed: 1", ColLabel.str "unnamed: 2"],
      [[Cell.str "row_number", Cell.str "as_of_date", Cell.str "customer_code"],
       [Cell.str "1", Cell.str "20250630", Cell.str "123"]]⟩ =
      Except.ok ⟨[ColLabel.str "1", ColLabel.str "unnamed: 1", ColLabel.str "unnamed: 2"],
      [[Cell.str "row_number", Cell.str "as_of_date", Cell.str "customer_code"],
       [Cell.str "1", Cell.str "20250630", Cell.str "123"]]⟩ ∧
    goodHeaderTok "row_number" = true := by
  exact ⟨by decide, by decide⟩

theorem C5_header_promotion_witness :
    promoteCond [ColLabel.num 0, ColLabel.str "Unnamed: 1"] = true ∧
    promoteHeaders ⟨[ColLabel.num 0, ColLabel.str "Unnamed: 1"],
      [[Cell.str "row_number", Cell.str "as_of_date"],
       [Cell.str "1", Cell.str "20250630"]]⟩ =
      Except.ok ⟨[ColLabel.str "row_number", ColLabel.str "as_of_date"],
        [[Cell.str "1", Cell.str "20250630"]]⟩ :=
  ⟨by decide,
   ((((C5_header_promotion ⟨[ColLabel.num 0, ColLabel.str "Unnamed: 1"],
      [[Cell.str "row_number", Cell.str "as_of_date"],
       [Cell.str "1", Cell.str "20250630"]]⟩).2 (by decide)) _ _ rfl).1
      (by decide)).trans (by decide)⟩

/-! ## C8: column-name canonicalization -/

/-- C8: canonicalization is a pure function of the label text — three
differently separated spellings of "customer code" all normalize to
`customer_code` — and `clean_column_headers` applies it unconditionally to
every column label of the promotion step's result, original or promoted. -/
theorem C8_canonicalization_unconditional :
    standardize_column_name " Customer Code " = "customer_code" ∧
    standardize_column_name "Customer-Code" = "customer_code" ∧
    standardize_column_name "Customer/Code" = "customer_code" ∧
    (∀ df p, promoteHeaders df = Except.ok p →
      clean_column_headers df = Except.ok ⟨standardizeCols p.cols, p.rows⟩) := by
  refine ⟨by decide, by decide, by decide, ?_⟩
  intro df p h
  unfold promoteHeaders at h
  unfold clean_column_headers
  by_cases hc : promoteCond df.cols
  · rw [if_pos hc] at h ⊢
    cases hrows : df.rows with
    | nil =>
      rw [hrows] at h
      exact Except.noConfusion h
    | cons r0 rest =>
      rw [hrows] at h
      replace h : (if (r0.map cellStr).any goodHeaderTok then
          Except.ok (⟨(r0.map cellStr).map ColLabel.str, rest⟩ : DFrame)
        else Except.ok df) = Except.ok p := h
      show (if (r0.map cellStr).any goodHeaderTok then
          Except.ok (⟨standardizeCols ((r0.map cellStr).map ColLabel.str), rest⟩ : DFrame)
        else Except.ok ⟨standardizeCols df.cols, r0 :: rest⟩) =
        Except.ok ⟨standardizeCols p.cols, p.rows⟩
      by_cases ha : (r0.map cellStr).any goodHeaderTok
      · rw [if_pos ha] at h ⊢
        injection h with h'
        subst h'
        rfl
      · rw [if_neg ha] at h ⊢
        injection h with h'
        subst h'
        rw [hrows]
  · rw [if_neg hc] at h ⊢
    injection h with h'
    subst h'
    rfl

theorem C8_canonicalization_unconditional_witness :
    promoteHeaders ⟨[ColLabel.str " Customer Code "], [[Cell.str "v"]]⟩ =
      Except.ok ⟨[ColLabel.str " Customer Code "], [[Cell.str "v"]]⟩ ∧
    clean_column_headers ⟨[ColLabel.str " Customer Code "], [[Cell.str "v"]]⟩ =
      Except.ok ⟨[ColLabel.str "customer_code"], [[Cell.str "v"]]⟩ :=
  ⟨by decide,
   (C8_canonicalization_unconditional.2.2.2
      ⟨[ColLabel.str " Customer Code "], [[Cell.str "v"]]⟩
      ⟨[ColLabel.str " Customer Code "], [[Cell.str "v"]]⟩
      (by decide)).trans (by decide)⟩

/-! ## C7: compound-field repair -/

theorem colIdxAux_lt (name : String) : ∀ (l : List ColLabel) (i : Nat),
    colIdxAux name l = some i → i < l.length := by
  intro l
  induction l with
  | nil => intro i h; exact Option.noConfusion h
  | cons a as ih =>
    intro i h
    rw [colIdxAux] at h
    by_cases ha : a == ColLabel.str name
    · rw [if_pos ha] at h
      cases h
      exact Nat.succ_pos _
    · rw [if_neg ha] at h
      obtain ⟨j, hj, rfl⟩ := Option.map_eq_some'.1 h
      exact Nat.succ_lt_succ (ih j hj)

/-- Row-wise update function applied by the compound split. -/
def splitRow (i : Nat) (r : List Cell) : List Cell :=
  match matchCompound (cellStr (r.getD i Cell.null)) with
  | some (d1, d8) => r.set i (Cell.str ⟨d8⟩) ++ [Cell.int (natOfDigits d1)]
  | none => r ++ [Cell.null]

theorem splitCompound_rows (df : DFrame) (i : Nat)
    (hmask : (getColumn df i).any (fun c => (matchCompound (cellStr c)).isSome) = true) :
    (splitCompound df i).cols = df.cols ++ [ColLabel.str "row_number"] ∧
    (splitCompound df i).rows = df.rows.map (splitRow i) := by
  unfold splitCompound
  rw [if_pos hmask]
  exact ⟨rfl, rfl⟩

theorem splitRow_getD_at (i : Nat) (r : List Cell) (W : Nat)
    (hr : r.length = W) (hi : i < W) :
    (splitRow i r).getD i Cell.null =
      (match matchCompound (cellStr (r.getD i Cell.null)) with
        | some p => Cell.str ⟨p.2⟩
        | none => r.getD i Cell.null) ∧
    (splitRow i r).getD W Cell.null =
      (match matchCompound (cellStr (r.getD i Cell.null)) with
        | some p => Cell.int (natOfDigits p.1)
        | none => Cell.null) := by
  unfold splitRow
  cases hm : matchCompound (cellStr (r.getD i Cell.null)) with
  | none =>
    constructor
    · exact getD_append_left_of_lt r [Cell.null] i Cell.null (by omega)
    · have := getD_append_at_length r Cell.null Cell.null
      rw [hr] at this
      exact this
  | some p =>
    obtain ⟨d1, d8⟩ := p
    have hlen : (r.set i (Cell.str ⟨d8⟩)).length = r.length :=
      List.length_set r i (Cell.str ⟨d8⟩)
    constructor
    · rw [getD_append_left_of_lt _ [Cell.int (natOfDigits d1)] i Cell.null (by omega)]
      exact getD_set_self_of_lt r i (Cell.str ⟨d8⟩) Cell.null (by omega)
    · have := getD_append_at_length (r.set i (Cell.str ⟨d8⟩))
        (Cell.int (natOfDigits d1)) Cell.null
      rw [hlen, hr] at this
      exact this

/-- C7: the compound split runs exactly when no `row_number` column exists but
an `as_of_date` column does: with both guards met and at least one matching
cell, each matching `as_of_date` cell is replaced by its 8-digit run and a new
trailing `row_number` column receives the leading integer (null on
non-matching rows); non-matching `as_of_date` cells are unchanged; with no
matching cell, or with a `row_number` column present (even an all-null one),
or without an `as_of_date` column, the table is returned untouched. -/
theorem C7_compound_split (df : DFrame) :
    (hasCol df "row_number" = true → compoundRepair df = df) ∧
    (hasCol df "as_of_date" = false → compoundRepair df = df) ∧
    (∀ i, hasCol df "row_number" = false → hasCol df "as_of_date" = true →
      colIdx df "as_of_date" = some i →
      (∀ r ∈ df.rows, r.length = df.cols.length) →
      (((getColumn df i).any (fun c => (matchCompound (cellStr c)).isSome) = false →
          compoundRepair df = df) ∧
       ((getColumn df i).any (fun c => (matchCompound (cellStr c)).isSome) = true →
          (compoundRepair df).cols = df.cols ++ [ColLabel.str "row_number"] ∧
          (compoundRepair df).rows.length = df.rows.length ∧
          getColumn (compoundRepair df) i = (getColumn df i).map (fun c =>
            match matchCompound (cellStr c) with
            | some p => Cell.str ⟨p.2⟩
            | none => c) ∧
          getColumn (compoundRepair df) df.cols.length = (getColumn df i).map (fun c =>
            match matchCompound (cellStr c) with
            | some p => Cell.int (natOfDigits p.1)
            | none => Cell.null)))) := by
  refine ⟨?_, ?_, ?_⟩
  · intro h
    unfold compoundRepair
    rw [if_neg (by simp [h])]
  · intro h
    unfold compoundRepair
    rw [if_neg (by simp [h])]
  · intro i h1 h2 h3 hrect
    have hi : i < df.cols.length := colIdxAux_lt _ _ _ h3
    have hrepair : compoundRepair df = splitCompound df i := by
      unfold compoundRepair
      rw [if_pos (by simp [h1, h2])]
      show (match colIdx df "as_of_date" with
        | some i => splitCompound df i
        | none => df) = splitCompound df i
      rw [h3]
    constructor
    · intro hmask
      rw [hrepair]
      unfold splitCompound
      rw [if_neg (by simp [hmask])]
    · intro hmask
      obtain ⟨hcols, hrows⟩ := splitCompound_rows df i hmask
      rw [hrepair]
      refine ⟨hcols, ?_, ?_, ?_⟩
      · rw [hrows, List.length_map]
      · show (splitCompound df i).rows.map (fun r => r.getD i Cell.null) = _
        rw [hrows, List.map_map]
        show df.rows.map (fun r => (splitRow i r).getD i Cell.null) = _
        unfold getColumn
        rw [List.map_map]
        refine List.map_congr_left (fun r hr => ?_)
        exact (splitRow_getD_at i r df.cols.length (hrect r hr) hi).1
      · show (splitCompound df i).rows.map (fun r => r.getD df.cols.length Cell.null) = _
        rw [hrows, List.map_map]
        show df.rows.map (fun r => (splitRow i r).getD df.cols.length Cell.null) = _
        unfold getColumn
        rw [List.map_map]
        refine List.map_congr_left (fun r hr => ?_)
        exact (splitRow_getD_at i r df.cols.length (hrect r hr) hi).2

theorem C7_compound_split_witness :
    hasCol ⟨[ColLabel.str "as_of_date"], [[Cell.str "1 20250630"], [Cell.str "x"]]⟩
      "row_number" = false ∧
    getColumn (compoundRepair
      ⟨[ColLabel.str "as_of_date"], [[Cell.str "1 20250630"], [Cell.str "x"]]⟩) 0 =
      [Cell.str "20250630", Cell.str "x"] ∧
    getColumn (compoundRepair
      ⟨[ColLabel.str "as_of_date"], [[Cell.str "1 20250630"], [Cell.str "x"]]⟩) 1 =
      [Cell.int 1, Cell.null] := by
  have h := (C7_compound_split
      ⟨[ColLabel.str "as_of_date"], [[Cell.str "1 20250630"], [Cell.str "x"]]⟩).2.2
      0 (by decide) (by decide) (by decide) (by decide)
  have h2 := h.2 (by decide)
  exact ⟨by decide, h2.2.2.1.trans (by decide), h2.2.2.2.trans (by decide)⟩

/-! ## C9: header normalization is idempotent in effect -/

theorem pyCharLower_ne_U (c : Char) : pyCharLower c ≠ 'U' := by
  unfold pyCharLower
  cases hf : ulPairs.find? (fun p => p.1 == c) with
  | none =>
    intro hc
    replace hc : c = 'U' := hc
    rw [hc] at hf
    have hfind : ulPairs.find? (fun p => p.1 == 'U') = some ('U', 'u') := by decide
    rw [hfind] at hf
    exact Option.noConfusion hf
  | some p =>
    have hmem : p ∈ ulPairs := List.mem_of_find?_eq_some hf
    have hall : ∀ q ∈ ulPairs, q.2 ≠ 'U' := by decide
    exact hall p hmem

theorem subst_char_ne_U (x : Char) (hx : x ≠ 'U') :
    (if x == ' ' || x == '-' || x == '/' then '_' else x) ≠ 'U' := by
  by_cases hc : (x == ' ' || x == '-' || x == '/') = true
  · rw [if_pos hc]
    decide
  · rw [if_neg hc]
    exact hx

theorem standardize_not_unnamed (s : String) :
    strStarts (standardize_column_name s) "Unnamed" = false := by
  have hU : "Unnamed".data = 'U' :: "nnamed".data := by decide
  show listIsPre "Unnamed".data
    (((pyStrip s.data).map pyCharLower).map
      (fun c => if c == ' ' || c == '-' || c == '/' then '_' else c)) = false
  cases h : pyStrip s.data with
  | nil =>
    decide
  | cons c t =>
    rw [List.map_cons, List.map_cons, hU]
    show ('U' == (if pyCharLower c == ' ' || pyCharLower c == '-' || pyCharLower c == '/'
        then '_' else pyCharLower c) &&
      listIsPre "nnamed".data
        ((t.map pyCharLower).map
          (fun c => if c == ' ' || c == '-' || c == '/' then '_' else c))) = false
    have hne := subst_char_ne_U (pyCharLower c) (pyCharLower_ne_U c)
    have hbeq : ('U' == (if pyCharLower c == ' ' || pyCharLower c == '-' || pyCharLower c == '/'
        then '_' else pyCharLower c)) = false :=
      beq_eq_false_iff_ne.2 (fun he => hne he.symm)
    rw [hbeq, Bool.false_and]

theorem promoteCond_standardize (l : List ColLabel) (hne : l ≠ []) :
    promoteCond (standardizeCols l) = false := by
  cases l with
  | nil => exact absurd rfl hne
  | cons a as =>
    simp only [standardizeCols, List.map_cons, promoteCond, List.all_cons,
      isPlaceholderLabel, standardize_not_unnamed, Bool.false_and]

theorem clean_standardized (l : List ColLabel) (rows : List (List Cell)) (hne : l ≠ []) :
    clean_column_headers ⟨standardizeCols l, rows⟩ =
      Except.ok ⟨standardizeCols (standardizeCols l), rows⟩ := by
  unfold clean_column_headers
  rw [if_neg (by simp [promoteCond_standardize l hne])]

theorem clean_no_cols (rest : List (List Cell)) :
    clean_column_headers ⟨[], [] :: rest⟩ = Except.ok ⟨[], [] :: rest⟩ := rfl

/-- C9: applying `clean_column_headers` to the (successful) result of
`clean_column_headers` on a rectangular table never promotes a further data
row: the second pass returns the table with its rows untouched (only the
already-standardized labels re-standardized), so the row count is
preserved. -/
theorem C9_clean_idempotent_in_effect (df df₁ : DFrame)
    (hrect : ∀ r ∈ df.rows, r.length = df.cols.length)
    (h : clean_column_headers df = Except.ok df₁) :
    clean_column_headers df₁ = Except.ok ⟨standardizeCols df₁.cols, df₁.rows⟩ := by
  unfold clean_column_headers at h
  by_cases hc : promoteCond df.cols
  · rw [if_pos hc] at h
    cases hrows : df.rows with
    | nil =>
      rw [hrows] at h
      exact Except.noConfusion h
    | cons r0 rest =>
      rw [hrows] at h
      replace h : (if (r0.map cellStr).any goodHeaderTok then
          Except.ok (⟨standardizeCols ((r0.map cellStr).map ColLabel.str), rest⟩ : DFrame)
        else Except.ok ⟨standardizeCols df.cols, r0 :: rest⟩) = Except.ok df₁ := h
      by_cases ha : (r0.map cellStr).any goodHeaderTok
      · rw [if_pos ha] at h
        injection h with h'
        subst h'
        cases hr0 : r0 with
        | nil =>
          rw [hr0] at ha
          exact absurd ha (by decide)
        | cons x xs =>
          exact clean_standardized _ rest (by simp)
      · rw [if_neg ha] at h
        injection h with h'
        subst h'
        cases hcols : df.cols with
        | nil =>
          have hr0 : r0 = [] := by
            have hmem : r0 ∈ df.rows := by
              rw [hrows]
              exact List.mem_cons_self _ _
            have := hrect r0 hmem
            rw [hcols] at this
            exact List.length_eq_zero.1 this
          subst hr0
          show clean_column_headers ⟨[], [] :: rest⟩ = Except.ok ⟨[], [] :: rest⟩
          exact clean_no_cols rest
        | cons a as =>
          exact clean_standardized _ _ (by simp)
  · rw [if_neg hc] at h
    injection h with h'
    subst h'
    have hne : df.cols ≠ [] := by
      intro hnil
      apply hc
      rw [hnil]
      rfl
    exact clean_standardized _ _ hne

theorem C9_clean_idempotent_in_effect_witness :
    (∀ r ∈ (⟨[ColLabel.num 0, ColLabel.num 1],
      [[Cell.str "a", Cell.str "b"], [Cell.str "c", Cell.str "d"]]⟩ : DFrame).rows,
        r.length = 2) ∧
    clean_column_headers ⟨[ColLabel.str "a", ColLabel.str "b"], [[Cell.str "c", Cell.str "d"]]⟩ =
      Except.ok ⟨[ColLabel.str "a", ColLabel.str "b"], [[Cell.str "c", Cell.str "d"]]⟩ := by
  refine ⟨by decide, ?_⟩
  have h := C9_clean_idempotent_in_effect
    ⟨[ColLabel.num 0, ColLabel.num 1],
      [[Cell.str "a", Cell.str "b"], [Cell.str "c", Cell.str "d"]]⟩
    ⟨[ColLabel.str "a", ColLabel.str "b"], [[Cell.str "c", Cell.str "d"]]⟩
    (by decide) (by decide)
  exact h.trans (by decide)
